import Mathlib

/-!
Shallow embedding of src/dsl_parser.py: a regex-driven lexer and a
recursive-descent parser with inline semantic checks for a small
vending-machine DSL.  Pure definitions mirror the Python source; each
raise site of DSLParseError is a distinct constructor of Err.
-/

namespace DSL

/-- Token model, mirroring the Python dataclass Token(type, value, line, col). -/
structure Token where
  type  : String
  value : String
  line  : Nat
  col   : Nat
deriving DecidableEq, Repr

/-- Every DSLParseError raise site in the source is one constructor.
lexErr is the single lexical error (tokenize, unknown character);
synErr is the generic syntactic error raised by Parser.consume
(expected type, optional expected value, got type, got value);
finErr is the missing statement terminator error in Parser.fin;
the sem* constructors are the semantic errors, in source order;
synCriticidad, synTxExpected, synListaFin, synConsulta are the
remaining syntactic raise sites; fuelOut is an artificial marker used
by the loop encodings below and is unreachable for the fuel supplied. -/
inductive Err where
  | lexErr (line col : Nat) (c : Char)
  | synErr (line col : Nat) (expType : String) (expVal : Option String) (gotType gotVal : String)
  | finErr (line col : Nat)
  | semReservedId (id : String)
  | semDupCarousel (id : String)
  | semDupProduct (id : String)
  | semEspacios
  | semCapacidad
  | semPrecio
  | semMinMax
  | synCriticidad (line col : Nat)
  | synTxExpected (line col : Nat)
  | semUndefinedProduct (id : String)
  | semQty
  | synListaFin (line col : Nat)
  | synConsulta (line col : Nat)
  | fuelOut
deriving DecidableEq, Repr

/-- Classifier: which Err constructors correspond to Python messages
beginning with the semantic-error prefix. -/
def Err.isSemantic : Err → Bool
  | .semReservedId _ => true
  | .semDupCarousel _ => true
  | .semDupProduct _ => true
  | .semEspacios => true
  | .semCapacidad => true
  | .semPrecio => true
  | .semMinMax => true
  | .semUndefinedProduct _ => true
  | .semQty => true
  | _ => false

/-- Classifier for the lexical error. -/
def Err.isLexical : Err → Bool
  | .lexErr _ _ _ => true
  | _ => false

/-- The RESERVED set of the source (a Python set of strings). -/
def RESERVED : List String :=
  ["CARRUSEL", "PRODUCTO", "ESPACIOS", "CAPACIDAD",
   "PRECIO", "MINIMO", "MAXIMO", "CRITICIDAD",
   "ALTA", "MEDIA", "BAJA",
   "SIMULAR", "TRANSACCIONES",
   "RETIRAR", "RESURTIR", "CONTAR",
   "ESTADO", "ESTADISTICAS", "REPORTE"]

/-- The SYMBOLS table: single structural characters to token types. -/
def SYMBOLS (c : Char) : Option String :=
  if c = '\x7b' then some "LBRACE"
  else if c = '\x7d' then some "RBRACE"
  else if c = '(' then some "LPAREN"
  else if c = ')' then some "RPAREN"
  else if c = '[' then some "LBRACKET"
  else if c = ']' then some "RBRACKET"
  else if c = ':' then some "COLON"
  else if c = ',' then some "COMMA"
  else if c = ';' then some "SEMI"
  else none

/-- Horizontal whitespace, the character class of RE_WHITESPACE. -/
def isWSChar (c : Char) : Bool := c = ' ' || c = '\t'

/-- Identifier continuation characters, the class in RE_ID after the
first letter.  Char.isAlpha and Char.isDigit are the ASCII classes,
matching the regex classes used by the source on ASCII input. -/
def isIdCont (c : Char) : Bool := c.isAlphanum || c = '_'

/-- RE_WHITESPACE as a prefix matcher: the matched lexeme and the rest. -/
def matchWS (l : List Char) : Option (List Char × List Char) :=
  match l with
  | c :: _ => if isWSChar c then some (l.takeWhile isWSChar, l.dropWhile isWSChar) else none
  | [] => none

/-- RE_COMMENT: a hash sign then everything up to the next newline. -/
def matchComment (l : List Char) : Option (List Char × List Char) :=
  match l with
  | c :: _ =>
    if c = '#' then some (l.takeWhile (fun x => x ≠ '\n'), l.dropWhile (fun x => x ≠ '\n'))
    else none
  | [] => none

/-- RE_DECIMAL: one-or-more digits, a literal dot, one-or-more digits. -/
def matchDecimal (l : List Char) : Option (List Char × List Char) :=
  let d1 := l.takeWhile Char.isDigit
  let r1 := l.dropWhile Char.isDigit
  if d1.isEmpty then none
  else
    match r1 with
    | '.' :: r2 =>
      let d2 := r2.takeWhile Char.isDigit
      let r3 := r2.dropWhile Char.isDigit
      if d2.isEmpty then none else some (d1 ++ '.' :: d2, r3)
    | _ => none

/-- RE_INT: one-or-more digits (greedy). -/
def matchInt (l : List Char) : Option (List Char × List Char) :=
  match l with
  | c :: _ => if c.isDigit then some (l.takeWhile Char.isDigit, l.dropWhile Char.isDigit) else none
  | [] => none

/-- RE_ID: a letter, then letters, digits or underscores (greedy). -/
def matchId (l : List Char) : Option (List Char × List Char) :=
  match l with
  | c :: _ => if c.isAlpha then some (l.takeWhile isIdCont, l.dropWhile isIdCont) else none
  | [] => none

/-- The body of RE_STRING after the opening quote: a greedy run of
(non-quote-non-backslash | backslash-then-non-newline) followed by the
closing quote.  Returns the consumed characters (closing quote
included) and the rest.  The negated class of the regex also matches a
newline, so strings may span lines. -/
def strBody : List Char → Option (List Char × List Char)
  | [] => none
  | c :: r =>
    if c = '"' then some ([c], r)
    else if c = '\\' then
      match r with
      | [] => none
      | d :: r2 => if d = '\n' then none else (strBody r2).map (fun p => (c :: d :: p.1, p.2))
    else (strBody r).map (fun p => (c :: p.1, p.2))

/-- RE_STRING: a double-quoted, backslash-escapable string literal. -/
def matchString (l : List Char) : Option (List Char × List Char) :=
  match l with
  | c :: r => if c = '"' then (strBody r).map (fun p => (c :: p.1, p.2)) else none
  | [] => none

/-- The advance() helper of tokenize: walk over the matched characters,
a newline resets the column to 1 and bumps the line, anything else
bumps the column. -/
def advancePos (matched : List Char) (line col : Nat) : Nat × Nat :=
  matched.foldl (fun p ch => if ch = '\n' then (p.1 + 1, 1) else (p.1, p.2 + 1)) (line, col)

/-- One iteration of the tokenize while-loop at a nonempty offset. -/
inductive LexStep where
  | emit (t : Token) (rest : List Char) (line col : Nat)
  | skip (rest : List Char) (line col : Nat)
  | fail (line col : Nat) (c : Char)

/-- The body of the tokenize loop, with the patterns tried in the
exact source order: newline, whitespace, comment, symbols, string,
decimal (before int by design), int, identifier-or-reserved, and
otherwise a lexical error at the offending character. -/
def lexStep (c : Char) (cs : List Char) (line col : Nat) : LexStep :=
  let l := c :: cs
  if c = '\n' then
    .emit ⟨"NL", "\\n", line, col⟩ cs (advancePos [c] line col).1 (advancePos [c] line col).2
  else
    match matchWS l with
    | some p => .skip p.2 (advancePos p.1 line col).1 (advancePos p.1 line col).2
    | none =>
      match matchComment l with
      | some p => .skip p.2 (advancePos p.1 line col).1 (advancePos p.1 line col).2
      | none =>
        match SYMBOLS c with
        | some tname =>
          .emit ⟨tname, String.mk [c], line, col⟩ cs (advancePos [c] line col).1 (advancePos [c] line col).2
        | none =>
          match matchString l with
          | some p =>
            .emit ⟨"STRING", String.mk p.1, line, col⟩ p.2 (advancePos p.1 line col).1 (advancePos p.1 line col).2
          | none =>
            match matchDecimal l with
            | some p =>
              .emit ⟨"DECIMAL", String.mk p.1, line, col⟩ p.2 (advancePos p.1 line col).1 (advancePos p.1 line col).2
            | none =>
              match matchInt l with
              | some p =>
                .emit ⟨"INT", String.mk p.1, line, col⟩ p.2 (advancePos p.1 line col).1 (advancePos p.1 line col).2
              | none =>
                match matchId l with
                | some p =>
                  .emit ⟨if String.mk p.1 ∈ RESERVED then "KW" else "ID",
                      String.mk p.1, line, col⟩ p.2
                    (advancePos p.1 line col).1 (advancePos p.1 line col).2
                | none => .fail line col c

/-- The tokenize loop: run lexStep until the input is exhausted, then
append the single EOF token at the final position.  The lexical error
aborts the whole run, exactly as the raise in the source.  The loop is
driven by a fuel bound on the number of iterations; every iteration
consumes at least one character (lexStep_emit_lt, lexStep_skip_lt), so
the fuel supplied by tokenize is proven sufficient below and the
fuelOut marker is unreachable. -/
def tokenizeAux : Nat → List Char → Nat → Nat → Except Err (List Token)
  | _, [], line, col => .ok [⟨"EOF", "", line, col⟩]
  | 0, _ :: _, _, _ => .error .fuelOut
  | fuel + 1, c :: cs, line, col =>
    match lexStep c cs line col with
    | .emit t rest l2 c2 => (tokenizeAux fuel rest l2 c2).map (fun ts => t :: ts)
    | .skip rest l2 c2 => tokenizeAux fuel rest l2 c2
    | .fail a b ch => .error (.lexErr a b ch)

/-- tokenize: the whole text, starting at line 1, column 1. -/
def tokenize (text : String) : Except Err (List Token) :=
  tokenizeAux text.toList.length text.toList 1 1

/-- Python int() on a digits-only lexeme. -/
def toNatD (s : String) : Nat :=
  s.toList.foldl (fun acc c => acc * 10 + (c.toNat - 48)) 0

/-- Python float() on a DECIMAL lexeme (digits, dot, digits).  The
source compares this value only with 0, so the value is represented
exactly by its integer numerator over the implicit positive
denominator 10 to the number of fraction digits: for every lexeme s of
shape digits-dot-digits, float(s) < 0 iff decNum s < 0. -/
def decNum (s : String) : Int :=
  let cs := s.toList
  let ip := cs.takeWhile Char.isDigit
  match cs.dropWhile Char.isDigit with
  | '.' :: fp =>
    ((toNatD (String.mk ip) * 10 ^ fp.length + toNatD (String.mk fp) : Nat) : Int)
  | _ => ((toNatD (String.mk ip) : Nat) : Int)

/-- Parser state: the Python parser keeps the token list with a
monotonically advancing index pos plus two identifier sets; the index
is modeled by consuming the token list from the front (rest is
tokens[pos:]), and the Python sets by lists with membership. -/
structure PState where
  rest : List Token
  products_defined : List String
  carousels_defined : List String
deriving DecidableEq, Repr

/-- Parser.current: the token at the cursor.  The token stream always
ends with one EOF token and the parser never advances past it, so the
default is never consulted on streams produced by tokenize. -/
def current (s : PState) : Token :=
  s.rest.headD ⟨"EOF", "", 0, 0⟩

/-- Parser.match: token-type test, with an optional value test. -/
def matchT (s : PState) (ttype : String) (v : Option String) : Bool :=
  let t := current s
  t.type = ttype && (match v with | none => true | some x => t.value = x)

/-- Parser.consume: advance past the expected token, or raise the
syntactic error with the expected/got descriptions. -/
def consume (ttype : String) (v : Option String) (s : PState) :
    Except Err (Token × PState) :=
  let tok := current s
  if matchT s ttype v then .ok (tok, { s with rest := s.rest.tail })
  else .error (.synErr tok.line tok.col ttype v tok.type tok.value)

/-- The loop of Parser.skip_nl: drop the leading newline tokens. -/
def dropNL : List Token → List Token
  | t :: r => if t.type = "NL" then dropNL r else t :: r
  | [] => []

/-- Parser.skip_nl. -/
def skip_nl (s : PState) : PState :=
  { s with rest := dropNL s.rest }

/-- Parser.fin: the flexible statement terminator, one semicolon then
optional newlines, or one-or-more newlines, else a syntactic error. -/
def fin (s : PState) : Except Err PState :=
  if matchT s "SEMI" none then do
    let (_, s1) ← consume "SEMI" none s
    pure (skip_nl s1)
  else if matchT s "NL" none then pure (skip_nl s)
  else .error (.finErr (current s).line (current s).col)

/-- Parser.parametros: ESPACIOS ':' INT fin, CAPACIDAD ':' INT fin,
with the positivity checks right after each integer is known. -/
def parametros (s : PState) : Except Err PState := do
  let (_, s) ← consume "KW" (some "ESPACIOS") s
  let (_, s) ← consume "COLON" none s
  let (te, s) ← consume "INT" none s
  if toNatD te.value ≤ 0 then throw .semEspacios
  let s ← fin s
  let (_, s) ← consume "KW" (some "CAPACIDAD") s
  let (_, s) ← consume "COLON" none s
  let (tc, s) ← consume "INT" none s
  if toNatD tc.value ≤ 0 then throw .semCapacidad
  fin s

/-- Parser.def_producto: the reserved-word and duplicate checks right
after the identifier, the price check right after the decimal, and the
min-max comparison right after the MAXIMO integer is consumed, before
the terminator and the criticality field. -/
def def_producto (s : PState) : Except Err PState := do
  let (_, s) ← consume "KW" (some "PRODUCTO") s
  let (idTok, s) ← consume "ID" none s
  let pid := idTok.value
  if pid ∈ RESERVED then throw (.semReservedId pid)
  if pid ∈ s.products_defined then throw (.semDupProduct pid)
  let s := { s with products_defined := pid :: s.products_defined }
  let s := skip_nl s
  let (_, s) ← consume "LBRACE" none s
  let s := skip_nl s
  let (_, s) ← consume "KW" (some "PRECIO") s
  let (_, s) ← consume "COLON" none s
  let (tp, s) ← consume "DECIMAL" none s
  if decNum tp.value < 0 then throw .semPrecio
  let s ← fin s
  let (_, s) ← consume "KW" (some "MINIMO") s
  let (_, s) ← consume "COLON" none s
  let (tmin, s) ← consume "INT" none s
  let s ← fin s
  let (_, s) ← consume "KW" (some "MAXIMO") s
  let (_, s) ← consume "COLON" none s
  let (tmax, s) ← consume "INT" none s
  if toNatD tmin.value > toNatD tmax.value then throw .semMinMax
  let s ← fin s
  let (_, s) ← consume "KW" (some "CRITICIDAD") s
  let (_, s) ← consume "COLON" none s
  let s ←
    if matchT s "KW" (some "ALTA") || matchT s "KW" (some "MEDIA")
        || matchT s "KW" (some "BAJA") then
      pure { s with rest := s.rest.tail }
    else
      throw (Err.synCriticidad (current s).line (current s).col)
  let s ← fin s
  let (_, s) ← consume "RBRACE" none s
  pure (skip_nl s)

/-- The while-loop of Parser.catalogo.  The fuel only bounds the
number of iterations; each iteration consumes at least one token, so
the fuel supplied by catalogo is never exhausted. -/
def catalogoLoop : Nat → PState → Except Err PState
  | 0, _ => throw .fuelOut
  | fuel + 1, s =>
    if matchT s "KW" (some "PRODUCTO") then do
      let s ← def_producto s
      catalogoLoop fuel (skip_nl s)
    else pure s

/-- Parser.catalogo: zero or more product definitions. -/
def catalogo (s : PState) : Except Err PState :=
  catalogoLoop (s.rest.length + 1) s

/-- Parser.def_carrusel: the reserved-word and duplicate checks right
after the identifier, before the body is parsed. -/
def def_carrusel (s : PState) : Except Err PState := do
  let (_, s) ← consume "KW" (some "CARRUSEL") s
  let (idTok, s) ← consume "ID" none s
  let cid := idTok.value
  if cid ∈ RESERVED then throw (.semReservedId cid)
  if cid ∈ s.carousels_defined then throw (.semDupCarousel cid)
  let s := { s with carousels_defined := cid :: s.carousels_defined }
  let s := skip_nl s
  let (_, s) ← consume "LBRACE" none s
  let s := skip_nl s
  let s ← parametros s
  let s := skip_nl s
  let s ← catalogo s
  let s := skip_nl s
  let (_, s) ← consume "RBRACE" none s
  pure (skip_nl s)

/-- The while-loop of Parser.definiciones. -/
def definicionesLoop : Nat → PState → Except Err PState
  | 0, _ => throw .fuelOut
  | fuel + 1, s =>
    if matchT s "KW" (some "CARRUSEL") then do
      let s ← def_carrusel s
      definicionesLoop fuel (skip_nl s)
    else pure s

/-- Parser.definiciones: zero or more carousel definitions. -/
def definiciones (s : PState) : Except Err PState :=
  definicionesLoop (s.rest.length + 1) s

/-- Parser.check_tx_semantics: the cross-reference check against the
cumulative product set, then the positivity check on the quantity. -/
def check_tx_semantics (pid : String) (qty : Nat) (s : PState) :
    Except Err PState := do
  if pid ∉ s.products_defined then throw (.semUndefinedProduct pid)
  if qty ≤ 0 then throw .semQty
  pure s

/-- Parser.tx: one transaction entry; the semantic checks fire right
after the argument list of the entry is parsed.  CONTAR carries no
quantity and is checked with the fixed placeholder quantity 1. -/
def tx (s : PState) : Except Err PState := do
  if matchT s "KW" (some "RETIRAR") then
    let (_, s) ← consume "KW" (some "RETIRAR") s
    let (_, s) ← consume "LPAREN" none s
    let (pidTok, s) ← consume "ID" none s
    let (_, s) ← consume "COMMA" none s
    let (qtyTok, s) ← consume "INT" none s
    let (_, s) ← consume "RPAREN" none s
    check_tx_semantics pidTok.value (toNatD qtyTok.value) s
  else if matchT s "KW" (some "RESURTIR") then
    let (_, s) ← consume "KW" (some "RESURTIR") s
    let (_, s) ← consume "LPAREN" none s
    let (pidTok, s) ← consume "ID" none s
    let (_, s) ← consume "COMMA" none s
    let (qtyTok, s) ← consume "INT" none s
    let (_, s) ← consume "RPAREN" none s
    check_tx_semantics pidTok.value (toNatD qtyTok.value) s
  else if matchT s "KW" (some "CONTAR") then
    let (_, s) ← consume "KW" (some "CONTAR") s
    let (_, s) ← consume "LPAREN" none s
    let (pidTok, s) ← consume "ID" none s
    let (_, s) ← consume "RPAREN" none s
    check_tx_semantics pidTok.value 1 s
  else
    throw (Err.synTxExpected (current s).line (current s).col)

/-- The while-loop of Parser.lista_tx: comma-separated entries. -/
def lista_txLoop : Nat → PState → Except Err PState
  | 0, _ => throw .fuelOut
  | fuel + 1, s =>
    if matchT s "COMMA" none then do
      let (_, s) ← consume "COMMA" none s
      let s := skip_nl s
      let s ← tx s
      lista_txLoop fuel s
    else pure s

/-- Parser.lista_tx. -/
def lista_tx (s : PState) : Except Err PState := do
  let s ← tx s
  lista_txLoop (s.rest.length + 1) s

/-- Parser.bloque_transacciones, with the strict requirement of a
terminator after the closing bracket. -/
def bloque_transacciones (s : PState) : Except Err PState := do
  let (_, s) ← consume "KW" (some "TRANSACCIONES") s
  let (_, s) ← consume "COLON" none s
  let (_, s) ← consume "LBRACKET" none s
  let s := skip_nl s
  let s ← if matchT s "RBRACKET" none then pure s else lista_tx s
  let s := skip_nl s
  let (_, s) ← consume "RBRACKET" none s
  if matchT s "SEMI" none || matchT s "NL" none then fin s
  else throw (Err.synListaFin (current s).line (current s).col)

/-- Parser.consulta: ESTADO, ESTADISTICAS or REPORTE(string). -/
def consulta (s : PState) : Except Err PState := do
  if matchT s "KW" (some "ESTADO") then
    let (_, s) ← consume "KW" (some "ESTADO") s
    pure s
  else if matchT s "KW" (some "ESTADISTICAS") then
    let (_, s) ← consume "KW" (some "ESTADISTICAS") s
    pure s
  else if matchT s "KW" (some "REPORTE") then
    let (_, s) ← consume "KW" (some "REPORTE") s
    let (_, s) ← consume "LPAREN" none s
    let (_, s) ← consume "STRING" none s
    let (_, s) ← consume "RPAREN" none s
    pure s
  else
    throw (Err.synConsulta (current s).line (current s).col)

/-- The query while-loop inside Parser.simulacion. -/
def consultasLoop : Nat → PState → Except Err PState
  | 0, _ => throw .fuelOut
  | fuel + 1, s =>
    if matchT s "KW" (some "ESTADO") || matchT s "KW" (some "ESTADISTICAS")
        || matchT s "KW" (some "REPORTE") then do
      let s ← consulta s
      let s ← fin s
      consultasLoop fuel (skip_nl s)
    else pure s

/-- Parser.simulacion. -/
def simulacion (s : PState) : Except Err PState := do
  let (_, s) ← consume "KW" (some "SIMULAR") s
  let s := skip_nl s
  let (_, s) ← consume "LBRACE" none s
  let s := skip_nl s
  let s ← bloque_transacciones s
  let s := skip_nl s
  let s ← consultasLoop (s.rest.length + 1) s
  let (_, s) ← consume "RBRACE" none s
  pure s

/-- Parser.programa: the start production. -/
def programa (s : PState) : Except Err PState := do
  let s := skip_nl s
  let s ← definiciones s
  let s := skip_nl s
  let s ← simulacion s
  let s := skip_nl s
  let (_, s) ← consume "EOF" none s
  pure s

/-- Fresh parser state over a token list, as Parser.__init__. -/
def initState (ts : List Token) : PState :=
  ⟨ts, [], []⟩

/-- The whole pipeline of main(): tokenize, then run the parser. -/
def validate (text : String) : Except Err PState := do
  let ts ← tokenize text
  programa (initState ts)

/-! Concrete scenario programs from the specification, written with
the concrete Spanish keywords of the source.  c1Accepted is the
accepted one-carousel/one-product scenario of the spec; c1PriceNeg is
identical except that the price literal is -1.0. -/

def c1Accepted : String :=
  "CARRUSEL c1 \x7b\nESPACIOS : 5\nCAPACIDAD : 20\nPRODUCTO p1 \x7b\nPRECIO : 1.50\nMINIMO : 1\nMAXIMO : 10\nCRITICIDAD : ALTA\n\x7d\n\x7d\nSIMULAR \x7b\nTRANSACCIONES : [ RESURTIR ( p1 , 5 ) ]\nESTADO\n\x7d\n"

def c1PriceNeg : String :=
  "CARRUSEL c1 \x7b\nESPACIOS : 5\nCAPACIDAD : 20\nPRODUCTO p1 \x7b\nPRECIO : -1.0\nMINIMO : 1\nMAXIMO : 10\nCRITICIDAD : ALTA\n\x7d\n\x7d\nSIMULAR \x7b\nTRANSACCIONES : [ RESURTIR ( p1 , 5 ) ]\nESTADO\n\x7d\n"

/-- Two carousels, each declaring a product named p1: the product set
is program-global, so the second declaration is a duplicate. -/
def c2CrossDup : String :=
  "CARRUSEL c1 \x7b\nESPACIOS : 5\nCAPACIDAD : 20\nPRODUCTO p1 \x7b\nPRECIO : 1.50\nMINIMO : 1\nMAXIMO : 10\nCRITICIDAD : ALTA\n\x7d\n\x7d\nCARRUSEL c2 \x7b\nESPACIOS : 5\nCAPACIDAD : 20\nPRODUCTO p1 \x7b\nPRECIO : 1.50\nMINIMO : 1\nMAXIMO : 10\nCRITICIDAD : ALTA\n\x7d\n\x7d\nSIMULAR \x7b\nTRANSACCIONES : [ RESURTIR ( p1 , 5 ) ]\nESTADO\n\x7d\n"

/-- A program whose ESPACIOS statement is terminated by the string t;
used to compare the three accepted statement terminators. -/
def c7Prog (t : String) : String :=
  "CARRUSEL c1 \x7b\nESPACIOS : 5" ++ t ++
  "CAPACIDAD : 20\n\x7d\nSIMULAR \x7b\nTRANSACCIONES : [ ]\nESTADO\n\x7d\n"

/-! Plumbing lemmas for the Except monad, used to unfold the parser
definitions in the theorems below. -/

@[simp] theorem ebind_ok {α β : Type} (a : α) (f : α → Except Err β) :
    (Except.ok a >>= f) = f a := rfl

@[simp] theorem ebind_error {α β : Type} (e : Err) (f : α → Except Err β) :
    ((Except.error e : Except Err α) >>= f) = .error e := rfl

@[simp] theorem epure_eq {α : Type} (a : α) : (pure a : Except Err α) = .ok a := rfl

@[simp] theorem ethrow_eq {α : Type} (e : Err) : (throw e : Except Err α) = .error e := rfl

theorem length_dropWhile_le (p : Char → Bool) (l : List Char) :
    (l.dropWhile p).length ≤ l.length := by
  induction l with
  | nil => simp
  | cons c cs ih =>
    by_cases h : p c
    · simp only [List.dropWhile_cons, h, if_pos, List.length_cons]
      omega
    · simp [List.dropWhile_cons, h]

theorem length_take_drop (p : Char → Bool) (l : List Char) :
    l.length = (l.takeWhile p).length + (l.dropWhile p).length := by
  rw [← List.length_append, List.takeWhile_append_dropWhile]

theorem matchWS_sound {l : List Char} {p : List Char × List Char}
    (h : matchWS l = some p) : p.2.length < l.length := by
  cases l with
  | nil => simp [matchWS] at h
  | cons c cs =>
    by_cases hw : isWSChar c
    · simp only [matchWS, hw, if_pos, Option.some.injEq] at h
      subst h
      simp only [List.dropWhile_cons, hw, if_pos, List.length_cons]
      exact Nat.lt_succ_of_le (length_dropWhile_le _ _)
    · simp [matchWS, hw] at h

theorem matchComment_sound {l : List Char} {p : List Char × List Char}
    (h : matchComment l = some p) : p.2.length < l.length := by
  cases l with
  | nil => simp [matchComment] at h
  | cons c cs =>
    by_cases hc : c = '#'
    · subst hc
      simp only [matchComment, if_pos, Option.some.injEq] at h
      subst h
      simp only [List.dropWhile_cons, List.length_cons]
      rw [if_pos (by decide)]
      exact Nat.lt_succ_of_le (length_dropWhile_le _ _)
    · simp [matchComment, hc] at h

theorem matchInt_sound {l : List Char} {p : List Char × List Char}
    (h : matchInt l = some p) : p.2.length < l.length := by
  cases l with
  | nil => simp [matchInt] at h
  | cons c cs =>
    by_cases hd : c.isDigit
    · simp only [matchInt, hd, if_pos, Option.some.injEq] at h
      subst h
      simp only [List.dropWhile_cons, hd, if_pos, List.length_cons]
      exact Nat.lt_succ_of_le (length_dropWhile_le _ _)
    · simp [matchInt, hd] at h

theorem matchId_sound {l : List Char} {p : List Char × List Char}
    (h : matchId l = some p) : p.2.length < l.length := by
  cases l with
  | nil => simp [matchId] at h
  | cons c cs =>
    by_cases ha : c.isAlpha
    · simp only [matchId, ha, if_pos, Option.some.injEq] at h
      subst h
      have hcont : isIdCont c = true := by
        simp [isIdCont, Char.isAlphanum, ha]
      simp only [List.dropWhile_cons, hcont, if_pos, List.length_cons]
      exact Nat.lt_succ_of_le (length_dropWhile_le _ _)
    · simp [matchId, ha] at h

theorem matchDecimal_sound {l : List Char} {p : List Char × List Char}
    (h : matchDecimal l = some p) : p.2.length < l.length := by
  have hlen := length_take_drop Char.isDigit l
  simp only [matchDecimal] at h
  split at h
  · exact absurd h (by simp)
  · split at h
    · next r2 heq =>
      split at h
      · exact absurd h (by simp)
      · have hr2 : (r2.dropWhile Char.isDigit).length ≤ r2.length :=
          length_dropWhile_le _ _
        rw [heq] at hlen
        simp only [List.length_cons] at hlen
        cases h
        show (r2.dropWhile Char.isDigit).length < l.length
        omega
    · exact absurd h (by simp)

theorem strBody_sound : ∀ (n : Nat) (l : List Char), l.length ≤ n →
    ∀ p, strBody l = some p → p.2.length < l.length := by
  intro n
  induction n with
  | zero =>
    intro l hl p h
    cases l with
    | nil => simp [strBody] at h
    | cons c r => simp at hl
  | succ n ih =>
    intro l hl p h
    cases l with
    | nil => simp [strBody] at h
    | cons c r =>
      unfold strBody at h
      split at h
      · cases h; simp
      · split at h
        · split at h
          · exact absurd h (by simp)
          · split at h
            · exact absurd h (by simp)
            · rw [Option.map_eq_some'] at h
              obtain ⟨q, hq1, hq2⟩ := h
              next r2 _ =>
                have := ih r2 (by simp at hl; omega) q hq1
                subst hq2
                simp only [List.length_cons]
                omega
        · rw [Option.map_eq_some'] at h
          obtain ⟨q, hq1, hq2⟩ := h
          have := ih r (by simp at hl; omega) q hq1
          subst hq2
          simp only [List.length_cons]
          omega

theorem matchString_sound {l : List Char} {p : List Char × List Char}
    (h : matchString l = some p) : p.2.length < l.length := by
  cases l with
  | nil => simp [matchString] at h
  | cons c r =>
    by_cases hq : c = '"'
    · subst hq
      simp only [matchString, if_pos] at h
      rw [Option.map_eq_some'] at h
      obtain ⟨q, hq1, hq2⟩ := h
      have := strBody_sound r.length r (Nat.le_refl _) q hq1
      subst hq2
      simp only [List.length_cons]
      omega
    · simp [matchString, hq] at h

/-- Every emitted or skipped step consumes at least one character. -/
theorem lexStep_emit_lt {c : Char} {cs : List Char} {line col : Nat}
    {t : Token} {rest : List Char} {l2 c2 : Nat}
    (h : lexStep c cs line col = .emit t rest l2 c2) :
    rest.length < (c :: cs).length := by
  unfold lexStep at h
  by_cases hnl : c = '\n'
  · simp only [hnl, if_pos] at h
    cases h; simp
  · simp only [if_neg hnl] at h
    rcases hw : matchWS (c :: cs) with _ | pw
    · rw [hw] at h
      rcases hc : matchComment (c :: cs) with _ | pc
      · rw [hc] at h
        rcases hs : SYMBOLS c with _ | tn
        · rw [hs] at h
          rcases hst : matchString (c :: cs) with _ | ps
          · rw [hst] at h
            rcases hd : matchDecimal (c :: cs) with _ | pd
            · rw [hd] at h
              rcases hi : matchInt (c :: cs) with _ | pi
              · rw [hi] at h
                rcases hid : matchId (c :: cs) with _ | pid
                · rw [hid] at h; cases h
                · rw [hid] at h
                  cases h
                  exact matchId_sound hid
              · rw [hi] at h
                cases h
                exact matchInt_sound hi
            · rw [hd] at h
              cases h
              exact matchDecimal_sound hd
          · rw [hst] at h
            cases h
            exact matchString_sound hst
        · rw [hs] at h
          cases h; simp
      · rw [hc] at h; cases h
    · rw [hw] at h; cases h

theorem lexStep_skip_lt {c : Char} {cs : List Char} {line col : Nat}
    {rest : List Char} {l2 c2 : Nat}
    (h : lexStep c cs line col = .skip rest l2 c2) :
    rest.length < (c :: cs).length := by
  unfold lexStep at h
  by_cases hnl : c = '\n'
  · simp only [hnl, if_pos] at h; cases h
  · simp only [if_neg hnl] at h
    rcases hw : matchWS (c :: cs) with _ | pw
    · rw [hw] at h
      rcases hc : matchComment (c :: cs) with _ | pc
      · rw [hc] at h
        rcases hs : SYMBOLS c with _ | tn
        · rw [hs] at h
          rcases hst : matchString (c :: cs) with _ | ps
          · rw [hst] at h
            rcases hd : matchDecimal (c :: cs) with _ | pd
            · rw [hd] at h
              rcases hi : matchInt (c :: cs) with _ | pi
              · rw [hi] at h
                rcases hid : matchId (c :: cs) with _ | pid
                · rw [hid] at h; cases h
                · rw [hid] at h; cases h
              · rw [hi] at h; cases h
            · rw [hd] at h; cases h
          · rw [hst] at h; cases h
        · rw [hs] at h; cases h
      · rw [hc] at h
        cases h
        exact matchComment_sound hc
    · rw [hw] at h
      cases h
      exact matchWS_sound hw

set_option maxRecDepth 200000

/-- C1 counterexample.  The claim says that the scenario program with
price -1.0 is rejected with the semantic price error; in fact the
lexer has no sign in its decimal or integer patterns and the minus
sign is not a structural symbol, so validation stops with a lexical
error at the minus character (line 5, column 10), which is not a
semantic error. -/
theorem c1_price_neg_is_lexical_error :
    validate c1PriceNeg = .error (.lexErr 5 10 '-') ∧
      (Err.lexErr 5 10 '-').isSemantic = false := by
  exact ⟨by rfl, by rfl⟩

/-- C1 (amended): a program identical to the accepted
one-carousel/one-product scenario except that the price is written as
-1.0 is rejected, but with a lexical error at the minus character
(line 5, column 10), not with the price semantic error: the decimal
pattern admits no sign, so the minus character matches no token
category.  The baseline scenario itself is accepted. -/
theorem c1_price_neg_rejected_amended :
    validate c1PriceNeg = .error (.lexErr 5 10 '-') ∧
      validate c1Accepted = .ok ⟨[], ["p1"], ["c1"]⟩ := by
  exact ⟨by rfl, by rfl⟩

/-- C2: a carousel definition whose identifier is already in the
carousel set, or a product definition whose identifier is already in
the program-global product set, is rejected at that second occurrence
with the matching duplicate-identifier semantic error, whatever tokens
follow; and the concrete program with the same product name declared
in two different carousels is rejected with the duplicate-product
error, showing the product set is global and not per carousel. -/
theorem duplicate_identifier_rejected :
    (∀ (rest : List Token) (cid : String) (lB cB : Nat) (prods cars : List String),
        cid ∉ RESERVED → cid ∈ cars →
        def_carrusel ⟨⟨"KW", "CARRUSEL", 0, 0⟩ :: ⟨"ID", cid, lB, cB⟩ :: rest, prods, cars⟩ =
          .error (.semDupCarousel cid)) ∧
    (∀ (rest : List Token) (pid : String) (lB cB : Nat) (prods cars : List String),
        pid ∉ RESERVED → pid ∈ prods →
        def_producto ⟨⟨"KW", "PRODUCTO", 0, 0⟩ :: ⟨"ID", pid, lB, cB⟩ :: rest, prods, cars⟩ =
          .error (.semDupProduct pid)) ∧
    validate c2CrossDup = .error (.semDupProduct "p1") := by
  refine ⟨?_, ?_, by rfl⟩
  · intro rest cid lB cB prods cars h1 h2
    simp [def_carrusel, consume, matchT, current, h1, h2]
  · intro rest pid lB cB prods cars h1 h2
    simp [def_producto, consume, matchT, current, h1, h2]

theorem duplicate_identifier_rejected_witness :
    def_carrusel ⟨[⟨"KW", "CARRUSEL", 0, 0⟩, ⟨"ID", "x", 1, 10⟩], [], ["x"]⟩ =
      .error (.semDupCarousel "x") :=
  duplicate_identifier_rejected.1 [] "x" 1 10 [] ["x"] (by decide) (by decide)

/-- C3: a transaction entry whose product identifier is not in the
cumulative product set is rejected with the undefined-product semantic
error by check_tx_semantics, and tx raises it immediately after the
argument list of the entry is parsed, for each of the three entry
forms, whatever tokens follow the entry. -/
theorem undefined_product_rejected_at_entry :
    (∀ (pid : String) (qty : Nat) (s : PState), pid ∉ s.products_defined →
        check_tx_semantics pid qty s = .error (.semUndefinedProduct pid)) ∧
    (∀ (pid qS : String) (r : List Token) (prods cars : List String), pid ∉ prods →
        tx ⟨⟨"KW", "RETIRAR", 0, 0⟩ :: ⟨"LPAREN", "(", 0, 0⟩ :: ⟨"ID", pid, 0, 0⟩ ::
            ⟨"COMMA", ",", 0, 0⟩ :: ⟨"INT", qS, 0, 0⟩ :: ⟨"RPAREN", ")", 0, 0⟩ :: r,
            prods, cars⟩ =
          .error (.semUndefinedProduct pid)) ∧
    (∀ (pid qS : String) (r : List Token) (prods cars : List String), pid ∉ prods →
        tx ⟨⟨"KW", "RESURTIR", 0, 0⟩ :: ⟨"LPAREN", "(", 0, 0⟩ :: ⟨"ID", pid, 0, 0⟩ ::
            ⟨"COMMA", ",", 0, 0⟩ :: ⟨"INT", qS, 0, 0⟩ :: ⟨"RPAREN", ")", 0, 0⟩ :: r,
            prods, cars⟩ =
          .error (.semUndefinedProduct pid)) ∧
    (∀ (pid : String) (r : List Token) (prods cars : List String), pid ∉ prods →
        tx ⟨⟨"KW", "CONTAR", 0, 0⟩ :: ⟨"LPAREN", "(", 0, 0⟩ :: ⟨"ID", pid, 0, 0⟩ ::
            ⟨"RPAREN", ")", 0, 0⟩ :: r, prods, cars⟩ =
          .error (.semUndefinedProduct pid)) := by
  refine ⟨?_, ?_, ?_, ?_⟩
  · intro pid qty s h
    simp [check_tx_semantics, h]
  · intro pid qS r prods cars h
    simp [tx, matchT, current, consume, check_tx_semantics, h]
  · intro pid qS r prods cars h
    simp [tx, matchT, current, consume, check_tx_semantics, h]
  · intro pid r prods cars h
    simp [tx, matchT, current, consume, check_tx_semantics, h]

theorem undefined_product_rejected_at_entry_witness :
    check_tx_semantics "p2" 5 ⟨[], [], []⟩ = .error (.semUndefinedProduct "p2") :=
  undefined_product_rejected_at_entry.1 "p2" 5 ⟨[], [], []⟩ (by decide)

/-- C8: for a defined product, the quantity check never rejects a
CONTAR entry: CONTAR carries no literal quantity and is checked with
the fixed placeholder quantity 1, which passes the positivity check;
a RETIRAR or RESURTIR entry whose integer literal has value 0 is
rejected with the quantity semantic error. -/
theorem count_placeholder_quantity :
    (∀ (pid : String) (s : PState), pid ∈ s.products_defined →
        check_tx_semantics pid 1 s = .ok s) ∧
    (∀ (pid : String) (r : List Token) (prods cars : List String), pid ∈ prods →
        tx ⟨⟨"KW", "CONTAR", 0, 0⟩ :: ⟨"LPAREN", "(", 0, 0⟩ :: ⟨"ID", pid, 0, 0⟩ ::
            ⟨"RPAREN", ")", 0, 0⟩ :: r, prods, cars⟩ =
          .ok ⟨r, prods, cars⟩) ∧
    (∀ (pid qS : String) (r : List Token) (prods cars : List String),
        pid ∈ prods → toNatD qS = 0 →
        tx ⟨⟨"KW", "RETIRAR", 0, 0⟩ :: ⟨"LPAREN", "(", 0, 0⟩ :: ⟨"ID", pid, 0, 0⟩ ::
            ⟨"COMMA", ",", 0, 0⟩ :: ⟨"INT", qS, 0, 0⟩ :: ⟨"RPAREN", ")", 0, 0⟩ :: r,
            prods, cars⟩ =
          .error .semQty) ∧
    (∀ (pid qS : String) (r : List Token) (prods cars : List String),
        pid ∈ prods → toNatD qS = 0 →
        tx ⟨⟨"KW", "RESURTIR", 0, 0⟩ :: ⟨"LPAREN", "(", 0, 0⟩ :: ⟨"ID", pid, 0, 0⟩ ::
            ⟨"COMMA", ",", 0, 0⟩ :: ⟨"INT", qS, 0, 0⟩ :: ⟨"RPAREN", ")", 0, 0⟩ :: r,
            prods, cars⟩ =
          .error .semQty) := by
  refine ⟨?_, ?_, ?_, ?_⟩
  · intro pid s h
    simp [check_tx_semantics, h]
  · intro pid r prods cars h
    simp [tx, matchT, current, consume, check_tx_semantics, h]
  · intro pid qS r prods cars h hq
    simp [tx, matchT, current, consume, check_tx_semantics, h, hq]
  · intro pid qS r prods cars h hq
    simp [tx, matchT, current, consume, check_tx_semantics, h, hq]

theorem count_placeholder_quantity_witness :
    check_tx_semantics "p1" 1 ⟨[], ["p1"], []⟩ = .ok ⟨[], ["p1"], []⟩ :=
  count_placeholder_quantity.1 "p1" ⟨[], ["p1"], []⟩ (by decide)

/-- C4: in a product definition, if the parsed MINIMO value is
strictly greater than the parsed MAXIMO value, def_producto stops with
the min-max semantic error immediately after the MAXIMO integer is
consumed, whatever tokens follow (so before the terminator and the
criticality field are parsed); if the two values are equal, the
definition is accepted and the rest of the body is parsed normally. -/
theorem min_max_check :
    (∀ (pid pS mS xS : String) (rest : List Token) (prods cars : List String),
        pid ∉ RESERVED → pid ∉ prods → ¬ decNum pS < 0 →
        toNatD mS > toNatD xS →
        def_producto ⟨⟨"KW", "PRODUCTO", 0, 0⟩ :: ⟨"ID", pid, 0, 0⟩ ::
            ⟨"LBRACE", "\x7b", 0, 0⟩ :: ⟨"KW", "PRECIO", 0, 0⟩ :: ⟨"COLON", ":", 0, 0⟩ ::
            ⟨"DECIMAL", pS, 0, 0⟩ :: ⟨"NL", "\\n", 0, 0⟩ :: ⟨"KW", "MINIMO", 0, 0⟩ ::
            ⟨"COLON", ":", 0, 0⟩ :: ⟨"INT", mS, 0, 0⟩ :: ⟨"NL", "\\n", 0, 0⟩ ::
            ⟨"KW", "MAXIMO", 0, 0⟩ :: ⟨"COLON", ":", 0, 0⟩ :: ⟨"INT", xS, 0, 0⟩ :: rest,
            prods, cars⟩ =
          .error .semMinMax) ∧
    (∀ (pid pS mS xS : String) (tail : List Token) (prods cars : List String),
        pid ∉ RESERVED → pid ∉ prods → ¬ decNum pS < 0 →
        toNatD mS = toNatD xS →
        def_producto ⟨⟨"KW", "PRODUCTO", 0, 0⟩ :: ⟨"ID", pid, 0, 0⟩ ::
            ⟨"LBRACE", "\x7b", 0, 0⟩ :: ⟨"KW", "PRECIO", 0, 0⟩ :: ⟨"COLON", ":", 0, 0⟩ ::
            ⟨"DECIMAL", pS, 0, 0⟩ :: ⟨"NL", "\\n", 0, 0⟩ :: ⟨"KW", "MINIMO", 0, 0⟩ ::
            ⟨"COLON", ":", 0, 0⟩ :: ⟨"INT", mS, 0, 0⟩ :: ⟨"NL", "\\n", 0, 0⟩ ::
            ⟨"KW", "MAXIMO", 0, 0⟩ :: ⟨"COLON", ":", 0, 0⟩ :: ⟨"INT", xS, 0, 0⟩ ::
            ⟨"NL", "\\n", 0, 0⟩ :: ⟨"KW", "CRITICIDAD", 0, 0⟩ :: ⟨"COLON", ":", 0, 0⟩ ::
            ⟨"KW", "ALTA", 0, 0⟩ :: ⟨"NL", "\\n", 0, 0⟩ :: ⟨"RBRACE", "\x7d", 0, 0⟩ :: tail,
            prods, cars⟩ =
          .ok ⟨dropNL tail, pid :: prods, cars⟩) := by
  constructor
  · intro pid pS mS xS rest prods cars h1 h2 h3 h4
    simp [def_producto, consume, matchT, current, fin, skip_nl, dropNL, h1, h2, h3, h4]
  · intro pid pS mS xS tail prods cars h1 h2 h3 h4
    simp [def_producto, consume, matchT, current, fin, skip_nl, dropNL, h1, h2, h3, h4]

theorem min_max_check_witness :
    (toNatD "3" > toNatD "2") ∧
    def_producto ⟨[⟨"KW", "PRODUCTO", 0, 0⟩, ⟨"ID", "p1", 0, 0⟩,
        ⟨"LBRACE", "\x7b", 0, 0⟩, ⟨"KW", "PRECIO", 0, 0⟩, ⟨"COLON", ":", 0, 0⟩,
        ⟨"DECIMAL", "1.0", 0, 0⟩, ⟨"NL", "\\n", 0, 0⟩, ⟨"KW", "MINIMO", 0, 0⟩,
        ⟨"COLON", ":", 0, 0⟩, ⟨"INT", "3", 0, 0⟩, ⟨"NL", "\\n", 0, 0⟩,
        ⟨"KW", "MAXIMO", 0, 0⟩, ⟨"COLON", ":", 0, 0⟩, ⟨"INT", "2", 0, 0⟩], [], []⟩ =
      .error .semMinMax :=
  ⟨by decide,
   min_max_check.1 "p1" "1.0" "3" "2" [] [] [] (by decide) (by decide) (by decide) (by decide)⟩

/-- C7: the fin production accepts a semicolon terminator and a
newline terminator with the same resulting state (the semicolon is
consumed and any following newlines are dropped; a first newline and
all following newlines are dropped), so one newline and several
consecutive newlines behave identically, and a statement followed by
neither a semicolon nor a newline is rejected with the
missing-terminator syntactic error.  The three concrete programs
differing only in the terminator of the ESPACIOS statement are all
accepted with the same final state. -/
theorem fin_terminator_equivalence :
    (∀ (t : Token) (r : List Token) (prods cars : List String), t.type = "SEMI" →
        fin ⟨t :: r, prods, cars⟩ = .ok ⟨dropNL r, prods, cars⟩) ∧
    (∀ (t : Token) (r : List Token) (prods cars : List String), t.type = "NL" →
        fin ⟨t :: r, prods, cars⟩ = .ok ⟨dropNL r, prods, cars⟩) ∧
    (∀ (t : Token) (r : List Token) (prods cars : List String),
        t.type ≠ "SEMI" → t.type ≠ "NL" →
        fin ⟨t :: r, prods, cars⟩ = .error (.finErr t.line t.col)) ∧
    (validate (c7Prog ";") = .ok ⟨[], [], ["c1"]⟩ ∧
      validate (c7Prog "\n") = .ok ⟨[], [], ["c1"]⟩ ∧
      validate (c7Prog "\n\n") = .ok ⟨[], [], ["c1"]⟩) := by
  refine ⟨?_, ?_, ?_, by rfl, by rfl, by rfl⟩
  · intro t r prods cars h
    simp [fin, matchT, current, consume, skip_nl, h]
  · intro t r prods cars h
    simp [fin, matchT, current, consume, skip_nl, dropNL, h]
  · intro t r prods cars h1 h2
    simp [fin, matchT, current, h1, h2]

theorem fin_terminator_equivalence_witness :
    fin ⟨[⟨"SEMI", ";", 1, 1⟩], [], []⟩ = .ok ⟨[], [], []⟩ :=
  fin_terminator_equivalence.1 ⟨"SEMI", ";", 1, 1⟩ [] [] [] (by rfl)

/-! Character-class facts used to show which lexer branch fires. -/

theorem ne_of_pred {p : Char → Bool} {c d : Char} (h : p c = true) (hd : p d = false) :
    c ≠ d := by
  rintro rfl
  rw [h] at hd
  exact Bool.noConfusion hd

theorem isDigit_false_of_isAlpha {c : Char} (h : c.isAlpha = true) : c.isDigit = false := by
  simp only [Char.isAlpha, Char.isUpper, Char.isLower, Char.isDigit, Bool.or_eq_true,
    Bool.and_eq_true, decide_eq_true_eq] at h ⊢
  simp only [Bool.and_eq_false_iff, decide_eq_false_iff_not, ge_iff_le, UInt32.le_def,
    BitVec.le_def, show (UInt32.toBitVec 48).toNat = 48 from rfl,
    show (UInt32.toBitVec 57).toNat = 57 from rfl,
    show (UInt32.toBitVec 65).toNat = 65 from rfl,
    show (UInt32.toBitVec 90).toNat = 90 from rfl,
    show (UInt32.toBitVec 97).toNat = 97 from rfl,
    show (UInt32.toBitVec 122).toNat = 122 from rfl] at h ⊢
  omega

theorem matchDecimal_head {c : Char} {cs : List Char} {p : List Char × List Char}
    (h : matchDecimal (c :: cs) = some p) : c.isDigit = true := by
  by_contra hc
  rw [Bool.not_eq_true] at hc
  simp [matchDecimal, List.takeWhile_cons, hc] at h

theorem matchId_head {c : Char} {cs : List Char} {p : List Char × List Char}
    (h : matchId (c :: cs) = some p) : c.isAlpha = true := by
  by_contra hc
  simp [matchId, hc] at h

theorem SYMBOLS_none_of_not_sym {c : Char}
    (h1 : c ≠ '\x7b') (h2 : c ≠ '\x7d') (h3 : c ≠ '(') (h4 : c ≠ ')')
    (h5 : c ≠ '[') (h6 : c ≠ ']') (h7 : c ≠ ':') (h8 : c ≠ ',') (h9 : c ≠ ';') :
    SYMBOLS c = none := by
  unfold SYMBOLS
  rw [if_neg h1, if_neg h2, if_neg h3, if_neg h4, if_neg h5, if_neg h6, if_neg h7,
    if_neg h8, if_neg h9]

/-- At an offset where the decimal pattern matches, the loop body
emits a DECIMAL token with the full decimal lexeme: all the earlier
categories fail on a digit, and the decimal branch precedes the
integer branch. -/
theorem lexStep_decimal {c : Char} {cs : List Char} (line col : Nat)
    {p : List Char × List Char} (h : matchDecimal (c :: cs) = some p) :
    lexStep c cs line col =
      .emit ⟨"DECIMAL", String.mk p.1, line, col⟩ p.2
        (advancePos p.1 line col).1 (advancePos p.1 line col).2 := by
  have hd : c.isDigit = true := matchDecimal_head h
  have hnl : c ≠ '\n' := ne_of_pred hd (by decide)
  have hws : matchWS (c :: cs) = none := by
    simp [matchWS, isWSChar, ne_of_pred hd (show Char.isDigit ' ' = false by decide),
      ne_of_pred hd (show Char.isDigit '\t' = false by decide)]
  have hcm : matchComment (c :: cs) = none := by
    simp [matchComment, ne_of_pred hd (show Char.isDigit '#' = false by decide)]
  have hsy : SYMBOLS c = none :=
    SYMBOLS_none_of_not_sym (ne_of_pred hd (by decide)) (ne_of_pred hd (by decide))
      (ne_of_pred hd (by decide)) (ne_of_pred hd (by decide)) (ne_of_pred hd (by decide))
      (ne_of_pred hd (by decide)) (ne_of_pred hd (by decide)) (ne_of_pred hd (by decide))
      (ne_of_pred hd (by decide))
  have hst : matchString (c :: cs) = none := by
    simp [matchString, ne_of_pred hd (show Char.isDigit '"' = false by decide)]
  simp [lexStep, hnl, hws, hcm, hsy, hst, h]

/-- At an offset where the identifier pattern matches, the loop body
emits a KW token when the lexeme is a reserved word and an ID token
otherwise. -/
theorem lexStep_id {c : Char} {cs : List Char} (line col : Nat)
    {p : List Char × List Char} (h : matchId (c :: cs) = some p) :
    lexStep c cs line col =
      .emit ⟨if String.mk p.1 ∈ RESERVED then "KW" else "ID", String.mk p.1, line, col⟩ p.2
        (advancePos p.1 line col).1 (advancePos p.1 line col).2 := by
  have ha : c.isAlpha = true := matchId_head h
  have hd : c.isDigit = false := isDigit_false_of_isAlpha ha
  have hnl : c ≠ '\n' := ne_of_pred ha (by decide)
  have hws : matchWS (c :: cs) = none := by
    simp [matchWS, isWSChar, ne_of_pred ha (show Char.isAlpha ' ' = false by decide),
      ne_of_pred ha (show Char.isAlpha '\t' = false by decide)]
  have hcm : matchComment (c :: cs) = none := by
    simp [matchComment, ne_of_pred ha (show Char.isAlpha '#' = false by decide)]
  have hsy : SYMBOLS c = none :=
    SYMBOLS_none_of_not_sym (ne_of_pred ha (by decide)) (ne_of_pred ha (by decide))
      (ne_of_pred ha (by decide)) (ne_of_pred ha (by decide)) (ne_of_pred ha (by decide))
      (ne_of_pred ha (by decide)) (ne_of_pred ha (by decide)) (ne_of_pred ha (by decide))
      (ne_of_pred ha (by decide))
  have hst : matchString (c :: cs) = none := by
    simp [matchString, ne_of_pred ha (show Char.isAlpha '"' = false by decide)]
  have hde : matchDecimal (c :: cs) = none := by
    simp [matchDecimal, List.takeWhile_cons, hd]
  have hin : matchInt (c :: cs) = none := by
    simp [matchInt, hd]
  simp [lexStep, hnl, hws, hcm, hsy, hst, hde, hin, h]

/-- C5: lexing 12.5 yields exactly one DECIMAL token with lexeme 12.5
followed only by the EOF token; and at every offset where the decimal
pattern matches, the loop body emits a DECIMAL token for the whole
decimal lexeme, never an INT token, because the decimal pattern is
tried before the integer pattern. -/
theorem decimal_before_int :
    tokenize "12.5" = .ok [⟨"DECIMAL", "12.5", 1, 1⟩, ⟨"EOF", "", 1, 5⟩] ∧
    (∀ (c : Char) (cs : List Char) (line col : Nat) (lex rest : List Char),
        matchDecimal (c :: cs) = some (lex, rest) →
        lexStep c cs line col =
          .emit ⟨"DECIMAL", String.mk lex, line, col⟩ rest
            (advancePos lex line col).1 (advancePos lex line col).2) :=
  ⟨by rfl, fun _ _ line col _ _ h => lexStep_decimal line col h⟩

theorem decimal_before_int_witness :
    lexStep '1' ['2', '.', '5'] 1 1 = .emit ⟨"DECIMAL", "12.5", 1, 1⟩ [] 1 5 :=
  decimal_before_int.2 '1' ['2', '.', '5'] 1 1 ['1', '2', '.', '5'] [] (by rfl)

/-- C6: a reserved word in identifier position is never accepted: the
lexer classifies every identifier-shaped lexeme that is a reserved
word as a KW token, and at each of the three identifier positions of
the grammar (carousel name, product name, transaction product
argument) the parser demands an ID token, so a KW token there is
rejected with the syntactic error of consume. -/
theorem reserved_word_as_identifier_rejected :
    (∀ (c : Char) (cs : List Char) (line col : Nat) (lex rest : List Char),
        matchId (c :: cs) = some (lex, rest) → String.mk lex ∈ RESERVED →
        lexStep c cs line col =
          .emit ⟨"KW", String.mk lex, line, col⟩ rest
            (advancePos lex line col).1 (advancePos lex line col).2) ∧
    (∀ (w : String) (lB cB : Nat) (rest : List Token) (prods cars : List String),
        w ∈ RESERVED →
        def_carrusel ⟨⟨"KW", "CARRUSEL", 0, 0⟩ :: ⟨"KW", w, lB, cB⟩ :: rest, prods, cars⟩ =
          .error (.synErr lB cB "ID" none "KW" w)) ∧
    (∀ (w : String) (lB cB : Nat) (rest : List Token) (prods cars : List String),
        w ∈ RESERVED →
        def_producto ⟨⟨"KW", "PRODUCTO", 0, 0⟩ :: ⟨"KW", w, lB, cB⟩ :: rest, prods, cars⟩ =
          .error (.synErr lB cB "ID" none "KW" w)) ∧
    (∀ (w kw : String) (lB cB : Nat) (rest : List Token) (prods cars : List String),
        w ∈ RESERVED → (kw = "RETIRAR" ∨ kw = "RESURTIR" ∨ kw = "CONTAR") →
        tx ⟨⟨"KW", kw, 0, 0⟩ :: ⟨"LPAREN", "(", 0, 0⟩ :: ⟨"KW", w, lB, cB⟩ :: rest,
            prods, cars⟩ =
          .error (.synErr lB cB "ID" none "KW" w)) := by
  refine ⟨?_, ?_, ?_, ?_⟩
  · intro c cs line col lex rest h hres
    rw [lexStep_id line col h]
    simp [hres]
  · intro w lB cB rest prods cars _
    simp [def_carrusel, consume, matchT, current]
  · intro w lB cB rest prods cars _
    simp [def_producto, consume, matchT, current]
  · intro w kw lB cB rest prods cars _ hkw
    rcases hkw with rfl | rfl | rfl <;>
      simp [tx, consume, matchT, current]

theorem reserved_word_as_identifier_rejected_witness :
    def_carrusel ⟨[⟨"KW", "CARRUSEL", 0, 0⟩, ⟨"KW", "ALTA", 2, 3⟩], [], []⟩ =
      .error (.synErr 2 3 "ID" none "KW" "ALTA") :=
  reserved_word_as_identifier_rejected.2.1 "ALTA" 2 3 [] [] [] (by decide)

theorem SYMBOLS_some_ne {c : Char} {tn : String} (h : SYMBOLS c = some tn) :
    tn ≠ "EOF" ∧ tn ≠ "ID" := by
  unfold SYMBOLS at h
  split_ifs at h <;> (cases h; exact ⟨by decide, by decide⟩)

/-- Every token emitted by the loop body is not the EOF token, and
when it is an ID token its value is not a reserved word (the lexer
reclassifies reserved words as KW tokens). -/
theorem lexStep_emit_token {c : Char} {cs : List Char} {line col : Nat}
    {t : Token} {rest : List Char} {l2 c2 : Nat}
    (h : lexStep c cs line col = .emit t rest l2 c2) :
    t.type ≠ "EOF" ∧ (t.type = "ID" → t.value ∉ RESERVED) := by
  unfold lexStep at h
  by_cases hnl : c = '\n'
  · simp only [hnl, if_pos] at h
    cases h
    exact ⟨by simp, fun habs => by simp at habs⟩
  · simp only [if_neg hnl] at h
    rcases hw : matchWS (c :: cs) with _ | pw
    · rw [hw] at h
      rcases hc : matchComment (c :: cs) with _ | pc
      · rw [hc] at h
        rcases hs : SYMBOLS c with _ | tn
        · rw [hs] at h
          rcases hst : matchString (c :: cs) with _ | ps
          · rw [hst] at h
            rcases hd : matchDecimal (c :: cs) with _ | pd
            · rw [hd] at h
              rcases hi : matchInt (c :: cs) with _ | pi
              · rw [hi] at h
                rcases hid : matchId (c :: cs) with _ | pid
                · rw [hid] at h; cases h
                · rw [hid] at h
                  cases h
                  by_cases hres : String.mk pid.1 ∈ RESERVED
                  · rw [if_pos hres]
                    exact ⟨by simp, fun habs => by simp at habs⟩
                  · rw [if_neg hres]
                    exact ⟨by simp, fun _ => hres⟩
              · rw [hi] at h
                cases h
                exact ⟨by simp, fun habs => by simp at habs⟩
            · rw [hd] at h
              cases h
              exact ⟨by simp, fun habs => by simp at habs⟩
          · rw [hst] at h
            cases h
            exact ⟨by simp, fun habs => by simp at habs⟩
        · rw [hs] at h
          cases h
          obtain ⟨hn1, hn2⟩ := SYMBOLS_some_ne hs
          exact ⟨hn1, fun habs => absurd habs hn2⟩
      · rw [hc] at h; cases h
    · rw [hw] at h; cases h

/-- Soundness of the tokenize loop for any sufficient fuel: the run
either returns a token list that is some prefix of non-EOF tokens (in
which ID values are never reserved words) followed by exactly one EOF
token, or stops with a lexical error. -/
theorem tokenizeAux_sound : ∀ (fuel : Nat) (l : List Char) (line col : Nat),
    l.length ≤ fuel →
    (∃ ts pre el ec, tokenizeAux fuel l line col = .ok ts ∧
        ts = pre ++ [⟨"EOF", "", el, ec⟩] ∧
        ∀ t ∈ pre, t.type ≠ "EOF" ∧ (t.type = "ID" → t.value ∉ RESERVED)) ∨
    (∃ a b ch, tokenizeAux fuel l line col = .error (.lexErr a b ch)) := by
  intro fuel
  induction fuel with
  | zero =>
    intro l line col hl
    cases l with
    | nil =>
      left
      exact ⟨[⟨"EOF", "", line, col⟩], [], line, col, rfl, rfl, by simp⟩
    | cons c cs => simp at hl
  | succ fuel ih =>
    intro l line col hl
    cases l with
    | nil =>
      left
      exact ⟨[⟨"EOF", "", line, col⟩], [], line, col, rfl, rfl, by simp⟩
    | cons c cs =>
      rcases hstep : lexStep c cs line col with ⟨t, rest, l2, c2⟩ | ⟨rest, l2, c2⟩ | ⟨a, b, ch⟩
      · have hlt := lexStep_emit_lt hstep
        have htok := lexStep_emit_token hstep
        have heq : tokenizeAux (fuel + 1) (c :: cs) line col =
            (tokenizeAux fuel rest l2 c2).map (fun ts => t :: ts) := by
          simp [tokenizeAux, hstep]
        rcases ih rest l2 c2 (by simp only [List.length_cons] at hl hlt ⊢; omega) with
          ⟨ts, pre, el, ec, h1, h2, h3⟩ | ⟨a, b, ch, h1⟩
        · left
          refine ⟨t :: ts, t :: pre, el, ec, ?_, by simp [h2], ?_⟩
          · rw [heq, h1]; rfl
          · intro u hu
            rcases List.mem_cons.mp hu with rfl | hu2
            · exact htok
            · exact h3 u hu2
        · right
          exact ⟨a, b, ch, by rw [heq, h1]; rfl⟩
      · have hlt := lexStep_skip_lt hstep
        have heq : tokenizeAux (fuel + 1) (c :: cs) line col =
            tokenizeAux fuel rest l2 c2 := by
          simp [tokenizeAux, hstep]
        rw [heq]
        exact ih rest l2 c2 (by simp only [List.length_cons] at hl hlt ⊢; omega)
      · right
        exact ⟨a, b, ch, by simp [tokenizeAux, hstep]⟩

/-- C9: the reserved-word guards after consume of an ID token are
unreachable on lexer output: every ID token produced by tokenize has a
non-reserved value (reserved words lex as KW); a successful consume of
an ID token returns a token of type ID taken from the stream; hence on
any stream satisfying the lexer invariant the consumed identifier is
never a reserved word, so the guards in def_carrusel and def_producto
are never taken. -/
theorem reserved_checks_unreachable :
    (∀ (text : String) (ts : List Token), tokenize text = .ok ts →
        ∀ t ∈ ts, t.type = "ID" → t.value ∉ RESERVED) ∧
    (∀ (s : PState) (tok : Token) (s' : PState),
        consume "ID" none s = .ok (tok, s') → tok.type = "ID" ∧ tok ∈ s.rest) ∧
    (∀ (s : PState) (tok : Token) (s' : PState),
        (∀ t ∈ s.rest, t.type = "ID" → t.value ∉ RESERVED) →
        consume "ID" none s = .ok (tok, s') → tok.value ∉ RESERVED) := by
  have key : ∀ (s : PState) (tok : Token) (s' : PState),
      consume "ID" none s = .ok (tok, s') → tok.type = "ID" ∧ tok ∈ s.rest := by
    intro s tok s' h
    cases hrest : s.rest with
    | nil =>
      exfalso
      simp [consume, matchT, current, hrest] at h
    | cons hd tl =>
      simp only [consume, matchT, current, hrest, List.headD] at h
      split at h
      · next hcond =>
        cases h
        refine ⟨?_, by simp [hrest]⟩
        simpa using hcond
      · exact absurd h (by simp)
  refine ⟨?_, key, ?_⟩
  · intro text ts hok t ht hid
    unfold tokenize at hok
    rcases tokenizeAux_sound text.toList.length text.toList 1 1 (Nat.le_refl _) with
      ⟨ts2, pre, el, ec, h1, h2, h3⟩ | ⟨a, b, ch, h1⟩
    · rw [hok] at h1
      cases h1
      subst h2
      rcases List.mem_append.mp ht with hpre | hlast
      · exact (h3 t hpre).2 hid
      · rw [List.mem_singleton.mp hlast] at hid
        exact absurd hid (by simp)
    · rw [hok] at h1
      cases h1
  · intro s tok s' hinv h
    obtain ⟨h1, h2⟩ := key s tok s' h
    exact hinv tok h2 h1

theorem reserved_checks_unreachable_witness :
    ((⟨"ID", "x", 1, 1⟩ : Token).type = "ID" ∧
      (⟨"ID", "x", 1, 1⟩ : Token) ∈ (⟨[⟨"ID", "x", 1, 1⟩], [], []⟩ : PState).rest) :=
  reserved_checks_unreachable.2.1 ⟨[⟨"ID", "x", 1, 1⟩], [], []⟩ ⟨"ID", "x", 1, 1⟩
    ⟨[], [], []⟩ (by rfl)

/-- C10: the lexer terminates on every finite input: tokenize is a
total function (its loop is bounded by the input length, each
iteration consuming at least one character), and for every text it
either returns a token list that ends in exactly one EOF token or
stops with a lexical error. -/
theorem lexer_total_single_eof :
    ∀ (text : String),
      (∃ ts pre el ec, tokenize text = .ok ts ∧ ts = pre ++ [⟨"EOF", "", el, ec⟩] ∧
          ∀ t ∈ pre, t.type ≠ "EOF") ∨
      (∃ a b ch, tokenize text = .error (.lexErr a b ch)) := by
  intro text
  rcases tokenizeAux_sound text.toList.length text.toList 1 1 (Nat.le_refl _) with
    ⟨ts, pre, el, ec, h1, h2, h3⟩ | ⟨a, b, ch, h1⟩
  · exact Or.inl ⟨ts, pre, el, ec, h1, h2, fun t ht => (h3 t ht).1⟩
  · exact Or.inr ⟨a, b, ch, h1⟩

theorem lexer_total_single_eof_witness :
    (∃ ts pre el ec, tokenize "a" = .ok ts ∧ ts = pre ++ [⟨"EOF", "", el, ec⟩] ∧
        ∀ t ∈ pre, t.type ≠ "EOF") ∨
    (∃ a b ch, tokenize "a" = .error (.lexErr a b ch)) :=
  lexer_total_single_eof "a"

end DSL
